import Mathlib

/-!
Verification development for the Boxity package-integrity core: the
difference-detection and scoring pipeline (ensemble merge, schema
validator/repairer, TIS aggregation and assessment, multi-angle combining)
together with the frontend timeline image unpacking.

The backend Python modules (api/index.py, api/ai.py) are not present in the
repository snapshot; their behaviour is modelled from the specification and
from the code excerpts embedded in the repository documentation
(gemini-prompt-engineering steering doc).  The ensemble merging logic and the
frontend AnimatedTimeline component are embedded directly from the code in
the repository.
-/

namespace Boxity

/-- The fixed detection taxonomy of difference types. -/
inductive DiffType
  | seal_tamper
  | repackaging
  | digital_edit
  | label_mismatch
  | missing_item
  | color_shift
  | dent
  | scratch
  | stain
deriving DecidableEq, Repr

/-- Severity levels HIGH, MEDIUM, LOW. -/
inductive Severity
  | HIGH
  | MEDIUM
  | LOW
deriving DecidableEq, Repr

/-- Overall assessment values. -/
inductive Assessment
  | SAFE
  | MODERATE_RISK
  | HIGH_RISK
  | UNKNOWN
deriving DecidableEq, Repr

/-- Modelled from the spec: the table-driven `tis_delta` per detection type
(api/index.py scoring table is absent from the snapshot; values from the
detection-taxonomy table: seal_tamper -40, repackaging -35, digital_edit -50,
label_mismatch -40, missing_item -35, color_shift -20, dent -15, scratch -8,
stain -5). -/
def tisDelta : DiffType → Int
  | .seal_tamper => -40
  | .repackaging => -35
  | .digital_edit => -50
  | .label_mismatch => -40
  | .missing_item => -35
  | .color_shift => -20
  | .dent => -15
  | .scratch => -8
  | .stain => -5

/-- Modelled from the spec: the table-driven severity per detection type. -/
def severityOf : DiffType → Severity
  | .seal_tamper => .HIGH
  | .repackaging => .HIGH
  | .digital_edit => .HIGH
  | .label_mismatch => .HIGH
  | .missing_item => .HIGH
  | .color_shift => .MEDIUM
  | .dent => .MEDIUM
  | .scratch => .LOW
  | .stain => .LOW

/-- Modelled from the spec: the critical security types whose presence forces
`HIGH_RISK` (the set `{seal_tamper, repackaging, digital_edit}`). -/
def isCritical : DiffType → Bool
  | .seal_tamper => true
  | .repackaging => true
  | .digital_edit => true
  | _ => false

/-- One detected discrepancy between baseline and current image, as finalized
by the scoring engine.  `confidence` is modelled as a rational in `[0,1]`;
`view` is present only in multi-angle mode. -/
structure Difference where
  id : String
  region : String
  type : DiffType
  description : String
  severity : Severity
  confidence : Rat
  tis_delta : Int
  view : Option String := none
deriving DecidableEq, Repr

/-- A raw candidate difference as proposed by a vision model: the model may
propose a type, a severity and even a delta, but the scoring engine is the
authority on severity and delta. -/
structure RawProposal where
  id : String
  region : String
  type : DiffType
  description : String
  confidence : Rat
  proposed_severity : Severity
  proposed_tis_delta : Int
deriving DecidableEq, Repr

/-- Modelled from the spec: the scoring engine turns a raw proposal into a
finalized Difference, assigning `severity` and `tis_delta` from the static
table keyed by `type`, ignoring whatever delta the model supplied
(api/index.py's scoring step is absent from the snapshot; the invariant is
`tis_delta` is a pure function of `type`, table-driven, not model-supplied). -/
def scoreDifference (r : RawProposal) : Difference :=
  { id := r.id
    region := r.region
    type := r.type
    description := r.description
    severity := severityOf r.type
    confidence := r.confidence
    tis_delta := tisDelta r.type }

/-- Integer clamp: `clamp x lo hi` bounds `x` into `[lo, hi]`. -/
def clampInt (x lo hi : Int) : Int := min hi (max lo x)

/-- Modelled from the spec: the per-angle aggregate Trust Integrity Score,
`aggregate_tis = clamp(100 + sum(d.tis_delta for d in differences), 0, 100)`
(`_compute_overall` in api/index.py is absent from the snapshot). -/
def aggregateTIS (ds : List Difference) : Int :=
  clampInt (100 + (ds.map (fun d => d.tis_delta)).sum) 0 100

/-- Modelled from the spec: the threshold mapping from a numeric TIS to an
assessment: SAFE if `tis >= 80`, MODERATE_RISK if `40 <= tis < 80`,
HIGH_RISK if `tis < 40`. -/
def assessFromTIS (tis : Int) : Assessment :=
  if 80 ≤ tis then .SAFE
  else if 40 ≤ tis then .MODERATE_RISK
  else .HIGH_RISK

/-- Modelled from the spec: the overall assessment of a finalized difference
list, with the critical override: any difference of a critical type forces
HIGH_RISK regardless of the numeric TIS. -/
def overallAssessment (ds : List Difference) : Assessment :=
  if ds.any (fun d => isCritical d.type) then .HIGH_RISK
  else assessFromTIS (aggregateTIS ds)

/-- Modelled from the spec: `confidence_overall` is the mean of per-difference
confidences, `1.0` if there are no differences. -/
def meanConfidence (ds : List Difference) : Rat :=
  if ds.isEmpty then 1
  else (ds.map (fun d => d.confidence)).sum / (ds.length : Rat)

/-- Modelled from the spec: the fixed templated notes string keyed by the
final assessment. -/
def notesFor : Assessment → String
  | .SAFE => "Product integrity maintained - safe to proceed"
  | .MODERATE_RISK => "Moderate risk detected - supervisor review recommended"
  | .HIGH_RISK => "High risk detected - immediate quarantine required"
  | .UNKNOWN => "Analysis unavailable"

/-- Output of analyzing one angle/pair. -/
structure AnalysisResult where
  differences : List Difference
  aggregate_tis : Int
  overall_assessment : Assessment
  confidence_overall : Rat
  notes : String
deriving DecidableEq, Repr

/-- Modelled from the spec: building the per-angle AnalysisResult from the
finalized difference list via the TIS aggregator. -/
def mkAnalysisResult (ds : List Difference) : AnalysisResult :=
  { differences := ds
    aggregate_tis := aggregateTIS ds
    overall_assessment := overallAssessment ds
    confidence_overall := meanConfidence ds
    notes := notesFor (overallAssessment ds) }

/-- Composition of two per-angle AnalysisResult values plus combined
metadata. -/
structure MultiAngleResult where
  differences : List Difference
  aggregate_tis : Int
  overall_assessment : Assessment
  confidence_overall : Rat
  angle_results : List AnalysisResult
  angle_tis_min : Int
  angle_tis_max : Int
deriving DecidableEq, Repr

/-- Modelled from the spec: the multi-angle combiner.  The combined difference
list is the concatenation of the angle lists tagged by view; the combined
`aggregate_tis` is the minimum of the two per-angle TIS values
(worst-angle-governs); the assessment is recomputed from the combined TIS
with the same critical override evaluated over the union of differences;
`confidence_overall` is the mean of the two angles' confidences. -/
def combineAngles (a1 a2 : AnalysisResult) : MultiAngleResult :=
  let tagged1 := a1.differences.map (fun d => { d with view := some "angle_1" })
  let tagged2 := a2.differences.map (fun d => { d with view := some "angle_2" })
  let combined := tagged1 ++ tagged2
  let tis := min a1.aggregate_tis a2.aggregate_tis
  { differences := combined
    aggregate_tis := tis
    overall_assessment :=
      if combined.any (fun d => isCritical d.type) then .HIGH_RISK
      else assessFromTIS tis
    confidence_overall := (a1.confidence_overall + a2.confidence_overall) / 2
    angle_results := [a1, a2]
    angle_tis_min := min a1.aggregate_tis a2.aggregate_tis
    angle_tis_max := max a1.aggregate_tis a2.aggregate_tis }

/-! ### Ensemble merging

Embedded from the merging-logic code in the repository documentation
(gemini-prompt-engineering steering doc):

```
merged = []
seen = set()
for item in list1 + list2:
    key = (item.get("region"), item.get("type"))
    if key not in seen:
        seen.add(key)
        merged.append(item)
```

The raw items at this stage are untyped dictionaries; `region` and `type`
are the string fields used as the de-duplication key. -/

/-- A raw untyped candidate item as parsed from one model's JSON output;
only the fields relevant to merging are kept, plus `description` so that
two items with the same key can differ in content. -/
structure RawItem where
  region : String
  type : String
  description : String
  confidence : Rat
deriving DecidableEq, Repr

/-- The de-duplication key `(region, type)` of a raw item. -/
def mergeKey (i : RawItem) : String × String := (i.region, i.type)

/-- The loop of the merging logic: walk the concatenated list, keeping an
item when its key has not been seen, and recording seen keys. -/
def mergeLoop : List RawItem → List (String × String) → List RawItem
  | [], _ => []
  | i :: rest, seen =>
    if mergeKey i ∈ seen then mergeLoop rest seen
    else i :: mergeLoop rest (mergeKey i :: seen)

/-- The ensemble merge: concatenate both raw lists, then keep the first
occurrence of each `(region, type)` key. -/
def mergeLists (list1 list2 : List RawItem) : List RawItem :=
  mergeLoop (list1 ++ list2) []

/-- Modelled from the spec: the 8-item cap on merged differences (the
"Limit to 8 differences" step of the ensemble process; the Python code
applying it is absent from the snapshot): truncate the merged list to its
first 8 entries, preserving order. -/
def capDifferences (ds : List RawItem) : List RawItem := ds.take 8

/-- The full merge step of the ensemble detector: merge then cap at 8. -/
def ensembleMerge (list1 list2 : List RawItem) : List RawItem :=
  capDifferences (mergeLists list1 list2)

/-! ### Schema validator/repairer -/

/-- States of the validator state machine. -/
inductive ValidatorState
  | Pending
  | RepairAttempted
  | Valid
  | Failed
deriving DecidableEq, Repr

/-- The usable signal handed downstream by the validator: a difference list
and an overall confidence. -/
structure ValidatedSignal where
  differences : List RawProposal
  confidence_overall : Rat
deriving DecidableEq, Repr

/-- Mean confidence of a raw proposal list (1 when empty). -/
def rawMeanConfidence (ps : List RawProposal) : Rat :=
  if ps.isEmpty then 1
  else (ps.map (fun p => p.confidence)).sum / (ps.length : Rat)

/-- Modelled from the spec and the `_validate_or_repair` excerpt in the
documentation: validate the payload; on success return it unchanged; on
failure issue exactly one repair attempt (resubmitting to a model call,
abstracted as `repairFn`) and validate once more; on repeated failure return
an empty difference list with `confidence_overall = 0`.  The schema check is
abstracted as the predicate `valid`.  The function is total: the failure
case is data, never an exception. -/
def validateOrRepair (valid : List RawProposal → Bool)
    (repairFn : List RawProposal → List RawProposal)
    (p : List RawProposal) : ValidatedSignal :=
  if valid p then ⟨p, rawMeanConfidence p⟩
  else
    let repaired := repairFn p
    if valid repaired then ⟨repaired, rawMeanConfidence repaired⟩
    else ⟨[], 0⟩

/-- Modelled from the spec: the sequence of validator states visited for a
payload (`Pending → Valid` or `Pending → RepairAttempted → Valid|Failed`). -/
def validatorTrace (valid : List RawProposal → Bool)
    (repairFn : List RawProposal → List RawProposal)
    (p : List RawProposal) : List ValidatorState :=
  if valid p then [.Pending, .Valid]
  else if valid (repairFn p) then [.Pending, .RepairAttempted, .Valid]
  else [.Pending, .RepairAttempted, .Failed]

/-! ### Core boundary and error shape -/

/-- The terminal condition of one pipeline run, as seen at the core
boundary: a client-fault input error, a server-fault model-unavailable
error (both ensemble calls failed), or a usable run with finalized raw
proposals. -/
inductive PipelineCondition
  | missingInput (msg : String)
  | bothModelCallsFailed (msg : String)
  | usable (raws : List RawProposal)

/-- The serialized response shape: `error` is present exactly on the error
path. -/
structure ResponseShape where
  error : Option String
  differences : List Difference
  aggregate_tis : Int
  overall_assessment : Assessment
deriving DecidableEq, Repr

/-- Modelled from the spec: the error shape
`{error: string, differences: [], aggregate_tis: 100,
overall_assessment: UNKNOWN}`. -/
def errorShape (msg : String) : ResponseShape :=
  { error := some msg
    differences := []
    aggregate_tis := 100
    overall_assessment := .UNKNOWN }

/-- Modelled from the spec: the response for a pipeline run.  Only
`InputError` and `ModelUnavailable` conditions surface the error shape;
every other condition yields the scored, schema-valid analysis result. -/
def respond : PipelineCondition → ResponseShape
  | .missingInput msg => errorShape msg
  | .bothModelCallsFailed msg => errorShape msg
  | .usable raws =>
    let r := mkAnalysisResult (raws.map scoreDifference)
    { error := none
      differences := r.differences
      aggregate_tis := r.aggregate_tis
      overall_assessment := r.overall_assessment }

/-! ### Frontend: AnimatedTimeline image unpacking

Embedded from the AnimatedTimeline component source.  JavaScript strings
are modelled as lists of characters so that trimming and splitting are
plain structural recursion. -/

/-- A JavaScript string, modelled as its character list. -/
abbrev JsStr := List Char

/-- JS `String.prototype.trim`: drop whitespace from both ends. -/
def jsTrim (s : JsStr) : JsStr :=
  ((s.dropWhile Char.isWhitespace).reverse.dropWhile Char.isWhitespace).reverse

/-- JS truthiness combinator `x || y` on strings: the empty string is
falsy. -/
def jsOr (x y : JsStr) : JsStr := if x = [] then y else x

/-- JS `s.split("||")` for the image-pack delimiter `"||"`: leftmost,
non-overlapping occurrences of the two-character delimiter separate the
segments.  `acc` holds the current segment, reversed. -/
def splitOnDelim : JsStr → JsStr → List JsStr
  | [], acc => [acc.reverse]
  | '|' :: '|' :: rest, acc => acc.reverse :: splitOnDelim rest []
  | c :: rest, acc => splitOnDelim rest (c :: acc)

/-- `unpackImages` from AnimatedTimeline: trim the packed string, return
`[]` when nothing is left, otherwise split on the `"||"` delimiter, trim
each segment and drop empty ones. -/
def unpackImages (packed : JsStr) : List JsStr :=
  if jsTrim packed = [] then []
  else ((splitOnDelim (jsTrim packed) []).map jsTrim).filter (fun s => s ≠ [])

/-- The image URLs actually rendered for one event: nothing when
`event.image` is falsy; otherwise `a = urls[0] || event.image`,
`b = urls[1] || ""`, and the rendered list is `[a, b].filter(Boolean)`. -/
def displayedImages (image : JsStr) : List JsStr :=
  if image = [] then []
  else
    [jsOr ((unpackImages image).getD 0 []) image,
     jsOr ((unpackImages image).getD 1 []) []].filter (fun s => s ≠ [])

/-! ### Lemmas about the ensemble merge loop -/

/-- The merge loop output is a sublist of its input, so merged order is
first-seen source order. -/
theorem mergeLoop_sublist (l : List RawItem) (seen : List (String × String)) :
    (mergeLoop l seen).Sublist l := by
  induction l generalizing seen with
  | nil => simp [mergeLoop]
  | cons i rest ih =>
    rw [mergeLoop]
    by_cases h : mergeKey i ∈ seen
    · simp only [if_pos h]
      exact (ih seen).trans (List.sublist_cons_self i rest)
    · simp only [if_neg h]
      exact (ih (mergeKey i :: seen)).cons₂ i

/-- No element kept by the merge loop has a key that was already seen. -/
theorem mergeLoop_key_not_seen (l : List RawItem) (seen : List (String × String))
    (j : RawItem) (hj : j ∈ mergeLoop l seen) : mergeKey j ∉ seen := by
  induction l generalizing seen with
  | nil => simp [mergeLoop] at hj
  | cons i rest ih =>
    rw [mergeLoop] at hj
    by_cases h : mergeKey i ∈ seen
    · rw [if_pos h] at hj
      exact ih seen hj
    · rw [if_neg h] at hj
      rcases List.mem_cons.mp hj with rfl | hj
      · exact h
      · intro hmem
        exact ih (mergeKey i :: seen) hj (List.mem_cons_of_mem _ hmem)

/-- The merge loop keeps at most one element per key. -/
theorem mergeLoop_pairwise (l : List RawItem) (seen : List (String × String)) :
    (mergeLoop l seen).Pairwise (fun a b => mergeKey a ≠ mergeKey b) := by
  induction l generalizing seen with
  | nil => simp [mergeLoop]
  | cons i rest ih =>
    rw [mergeLoop]
    by_cases h : mergeKey i ∈ seen
    · rw [if_pos h]; exact ih seen
    · rw [if_neg h]
      refine List.Pairwise.cons ?_ (ih (mergeKey i :: seen))
      intro b hb hkey
      exact mergeLoop_key_not_seen rest (mergeKey i :: seen) b hb
        (by rw [← hkey]; exact List.mem_cons_self _ _)

/-- Every key occurring in the input and not already seen is represented in
the merge loop output. -/
theorem mergeLoop_covers (l : List RawItem) (seen : List (String × String))
    (i : RawItem) (hi : i ∈ l) (hns : mergeKey i ∉ seen) :
    ∃ j ∈ mergeLoop l seen, mergeKey j = mergeKey i := by
  induction l generalizing seen with
  | nil => simp at hi
  | cons a rest ih =>
    rw [mergeLoop]
    by_cases h : mergeKey a ∈ seen
    · rw [if_pos h]
      rcases List.mem_cons.mp hi with rfl | hi
      · exact absurd h hns
      · exact ih seen hi hns
    · rw [if_neg h]
      rcases List.mem_cons.mp hi with rfl | hi
      · exact ⟨i, List.mem_cons_self _ _, rfl⟩
      · by_cases hk : mergeKey i = mergeKey a
        · exact ⟨a, List.mem_cons_self _ _, hk.symm⟩
        · obtain ⟨j, hj, hjk⟩ := ih (mergeKey a :: seen) hi
            (by
              intro hmem
              rcases List.mem_cons.mp hmem with heq | hmem
              · exact hk heq
              · exact hns hmem)
          exact ⟨j, List.mem_cons_of_mem _ hj, hjk⟩

/-- Each element kept by the merge loop is the first element of the input
bearing its key. -/
theorem mergeLoop_keeps_first (l : List RawItem) (seen : List (String × String))
    (j : RawItem) (hj : j ∈ mergeLoop l seen) :
    l.find? (fun x => decide (mergeKey x = mergeKey j)) = some j := by
  induction l generalizing seen with
  | nil => simp [mergeLoop] at hj
  | cons i rest ih =>
    rw [mergeLoop] at hj
    by_cases h : mergeKey i ∈ seen
    · rw [if_pos h] at hj
      have hne : mergeKey i ≠ mergeKey j := by
        intro heq
        exact mergeLoop_key_not_seen rest seen j hj (heq ▸ h)
      rw [List.find?_cons_of_neg _ (by simpa using hne)]
      exact ih seen hj
    · rw [if_neg h] at hj
      rcases List.mem_cons.mp hj with rfl | hj
      · rw [List.find?_cons_of_pos _ (by simp)]
      · have hne : mergeKey i ≠ mergeKey j := by
          intro heq
          exact mergeLoop_key_not_seen rest (mergeKey i :: seen) j hj
            (heq ▸ List.mem_cons_self _ _)
        rw [List.find?_cons_of_neg _ (by simpa using hne)]
        exact ih (mergeKey i :: seen) hj

/-! ### Claim theorems -/

/-- C1: for every pair of per-angle AnalysisResult values, the multi-angle
combiner produces a MultiAngleResult whose `aggregate_tis` equals the
minimum of the two per-angle `aggregate_tis` values. -/
theorem combined_tis_is_min_of_angles :
    ∀ a1 a2 : AnalysisResult,
      (combineAngles a1 a2).aggregate_tis =
        min a1.aggregate_tis a2.aggregate_tis :=
  fun _ _ => rfl

/-- C2: for every finalized difference list, `aggregate_tis` equals
`clamp(100 + sum of tis_delta, 0, 100)`, hence is an integer in `[0,100]`,
and the empty list yields `100`. -/
theorem aggregate_tis_is_clamped_sum :
    ∀ ds : List Difference,
      aggregateTIS ds =
          clampInt (100 + (ds.map (fun d => d.tis_delta)).sum) 0 100
        ∧ 0 ≤ aggregateTIS ds ∧ aggregateTIS ds ≤ 100
        ∧ aggregateTIS ([] : List Difference) = 100 := by
  intro ds
  refine ⟨rfl, ?_, ?_, rfl⟩ <;>
    · simp only [aggregateTIS, clampInt]
      omega

/-- C5: the difference list after the merge step has length at most 8, the
cap being a truncation of the merged list that preserves its order. -/
theorem merged_differences_capped_at_eight :
    ∀ list1 list2 : List RawItem,
      (ensembleMerge list1 list2).length ≤ 8
        ∧ (ensembleMerge list1 list2).Sublist (mergeLists list1 list2)
        ∧ ensembleMerge list1 list2 = (mergeLists list1 list2).take 8 := by
  intro list1 list2
  refine ⟨?_, List.take_sublist 8 _, rfl⟩
  simp only [ensembleMerge, capDifferences, List.length_take]
  exact min_le_left 8 _

/-- C4: the ensemble merge is the concatenation `list1 ++ list2` de-duplicated
by the key `(region, type)`: the merged list is a sublist of the
concatenation (first-seen order, first model's outputs first), has pairwise
distinct keys (at most one entry per key), represents every key of the
concatenation, and keeps exactly the first occurrence of each key. -/
theorem ensemble_merge_is_first_occurrence_dedup :
    ∀ list1 list2 : List RawItem,
      (mergeLists list1 list2).Sublist (list1 ++ list2)
        ∧ (mergeLists list1 list2).Pairwise (fun a b => mergeKey a ≠ mergeKey b)
        ∧ (∀ i ∈ list1 ++ list2,
            ∃ j ∈ mergeLists list1 list2, mergeKey j = mergeKey i)
        ∧ (∀ j ∈ mergeLists list1 list2,
            (list1 ++ list2).find?
              (fun x => decide (mergeKey x = mergeKey j)) = some j) := by
  intro list1 list2
  refine ⟨mergeLoop_sublist _ _, mergeLoop_pairwise _ _, ?_, ?_⟩
  · intro i hi
    exact mergeLoop_covers _ _ i hi (by simp)
  · intro j hj
    exact mergeLoop_keeps_first _ _ j hj

/-- Witness for C4 at concrete model outputs sharing one key. -/
theorem ensemble_merge_dedup_witness :
    (∃ j ∈ mergeLists [⟨"top edge", "seal_tamper", "from model 1", 1⟩]
        [⟨"left side", "dent", "from model 2", 1⟩,
         ⟨"top edge", "seal_tamper", "from model 2", 1⟩],
      mergeKey j = mergeKey ⟨"top edge", "seal_tamper", "from model 2", 1⟩)
    ∧ mergeLists [⟨"top edge", "seal_tamper", "from model 1", 1⟩]
        [⟨"left side", "dent", "from model 2", 1⟩,
         ⟨"top edge", "seal_tamper", "from model 2", 1⟩]
      = [⟨"top edge", "seal_tamper", "from model 1", 1⟩,
         ⟨"left side", "dent", "from model 2", 1⟩] := by
  refine ⟨?_, by decide⟩
  exact (ensemble_merge_is_first_occurrence_dedup
      [⟨"top edge", "seal_tamper", "from model 1", 1⟩]
      [⟨"left side", "dent", "from model 2", 1⟩,
       ⟨"top edge", "seal_tamper", "from model 2", 1⟩]).2.2.1
    ⟨"top edge", "seal_tamper", "from model 2", 1⟩ (by decide)

/-- C3: any difference of a critical type (seal_tamper, repackaging or
digital_edit) forces `overall_assessment = HIGH_RISK`, regardless of the
numeric aggregate TIS. -/
theorem critical_type_forces_high_risk (ds : List Difference)
    (h : ∃ d ∈ ds, isCritical d.type = true) :
    overallAssessment ds = .HIGH_RISK := by
  obtain ⟨d, hd, hc⟩ := h
  unfold overallAssessment
  rw [if_pos (List.any_eq_true.mpr ⟨d, hd, hc⟩)]

/-- A single seal_tamper detection at confidence 0.84: the scoring table
assigns `tis_delta = -40`. -/
def sealTamperDiff : Difference :=
  scoreDifference
    ⟨"d1", "top edge", .seal_tamper, "Seal gap visible with lifted flap",
      84/100, .HIGH, -40⟩

/-- Witness for C3: a single seal_tamper gives `aggregate_tis = 60` but the
assessment is HIGH_RISK, while the bare thresholds would give
MODERATE_RISK. -/
theorem critical_type_forces_high_risk_witness :
    (∃ d ∈ [sealTamperDiff], isCritical d.type = true)
    ∧ overallAssessment [sealTamperDiff] = .HIGH_RISK
    ∧ aggregateTIS [sealTamperDiff] = 60
    ∧ assessFromTIS (aggregateTIS [sealTamperDiff]) = .MODERATE_RISK :=
  ⟨by decide, critical_type_forces_high_risk _ (by decide), by decide, by decide⟩

/-- C7: when every difference has a non-critical type, the assessment is
exactly the thresholded one: SAFE iff `aggregate_tis ≥ 80`, MODERATE_RISK
iff `40 ≤ aggregate_tis < 80`, HIGH_RISK iff `aggregate_tis < 40`. -/
theorem noncritical_assessment_thresholds (ds : List Difference)
    (h : ∀ d ∈ ds, isCritical d.type = false) :
    (overallAssessment ds = .SAFE ↔ 80 ≤ aggregateTIS ds)
    ∧ (overallAssessment ds = .MODERATE_RISK ↔
        40 ≤ aggregateTIS ds ∧ aggregateTIS ds < 80)
    ∧ (overallAssessment ds = .HIGH_RISK ↔ aggregateTIS ds < 40) := by
  have hany : ds.any (fun d => isCritical d.type) = false := by
    rw [List.any_eq_false]
    intro d hd
    simp [h d hd]
  unfold overallAssessment assessFromTIS
  rw [hany]
  simp only [Bool.false_eq_true, if_false]
  split_ifs with h80 h40 <;>
    refine ⟨⟨fun he => ?_, fun hn => ?_⟩, ⟨fun he => ?_, fun hn => ?_⟩,
      ⟨fun he => ?_, fun hn => ?_⟩⟩ <;>
    first
      | rfl
      | omega
      | (exact absurd he (by decide))

/-- A single dent detection at confidence 0.78: the scoring table assigns
`tis_delta = -15`. -/
def dentDiff : Difference :=
  scoreDifference
    ⟨"a1-d1", "left side", .dent, "Concave deformation on left side",
      78/100, .MEDIUM, -15⟩

/-- Witness for C7: a single non-critical dent gives `aggregate_tis = 85`
and assessment SAFE. -/
theorem noncritical_assessment_thresholds_witness :
    (∀ d ∈ [dentDiff], isCritical d.type = false)
    ∧ (overallAssessment [dentDiff] = .SAFE ↔ 80 ≤ aggregateTIS [dentDiff])
    ∧ aggregateTIS [dentDiff] = 85
    ∧ overallAssessment [dentDiff] = .SAFE :=
  ⟨by decide, (noncritical_assessment_thresholds _ (by decide)).1,
    by decide, by decide⟩

/-- C8: in every AnalysisResult built by the scoring engine, each
difference's `tis_delta` is determined solely by its `type` via the fixed
scoring table, independent of the delta the model supplied; the table is
seal_tamper -40, repackaging -35, digital_edit -50, label_mismatch -40,
missing_item -35, color_shift -20, dent -15, scratch -8, stain -5. -/
theorem tis_delta_table_driven :
    (∀ r : RawProposal, (scoreDifference r).tis_delta = tisDelta r.type)
    ∧ (∀ raws : List RawProposal,
        ∀ d ∈ (mkAnalysisResult (raws.map scoreDifference)).differences,
          d.tis_delta = tisDelta d.type)
    ∧ tisDelta .seal_tamper = -40 ∧ tisDelta .repackaging = -35
    ∧ tisDelta .digital_edit = -50 ∧ tisDelta .label_mismatch = -40
    ∧ tisDelta .missing_item = -35 ∧ tisDelta .color_shift = -20
    ∧ tisDelta .dent = -15 ∧ tisDelta .scratch = -8
    ∧ tisDelta .stain = -5 := by
  refine ⟨fun r => rfl, ?_, rfl, rfl, rfl, rfl, rfl, rfl, rfl, rfl, rfl⟩
  intro raws d hd
  have hd2 : d ∈ raws.map scoreDifference := hd
  obtain ⟨r, _, rfl⟩ := List.mem_map.mp hd2
  rfl

/-- Witness for C8: a proposal whose model-supplied delta is -1 is finalized
with the table value -40 for seal_tamper. -/
theorem tis_delta_table_driven_witness :
    (scoreDifference
        ⟨"d1", "top edge", .seal_tamper, "s", 1/2, .LOW, -1⟩).tis_delta
      = tisDelta DiffType.seal_tamper
    ∧ (scoreDifference
        ⟨"d1", "top edge", .seal_tamper, "s", 1/2, .LOW, -1⟩).tis_delta
      = -40 :=
  ⟨tis_delta_table_driven.1 ⟨"d1", "top edge", .seal_tamper, "s", 1/2, .LOW, -1⟩,
    by decide⟩

/-- C6: the validator issues at most one repair attempt per payload, its
trace follows the state machine `Pending → Valid` or
`Pending → RepairAttempted → Valid|Failed`, and when the repaired payload is
still invalid it returns the empty difference list with
`confidence_overall = 0` as data (the function is total, so nothing is
raised to the caller). -/
theorem validator_one_repair_then_data (valid : List RawProposal → Bool)
    (repairFn : List RawProposal → List RawProposal) (p : List RawProposal) :
    (validatorTrace valid repairFn p).count .RepairAttempted ≤ 1
    ∧ (validatorTrace valid repairFn p = [.Pending, .Valid]
        ∨ validatorTrace valid repairFn p = [.Pending, .RepairAttempted, .Valid]
        ∨ validatorTrace valid repairFn p = [.Pending, .RepairAttempted, .Failed])
    ∧ (valid p = false → valid (repairFn p) = false →
        validateOrRepair valid repairFn p = ⟨[], 0⟩)
    ∧ (valid p = true →
        validateOrRepair valid repairFn p = ⟨p, rawMeanConfidence p⟩) := by
  unfold validatorTrace validateOrRepair
  by_cases h1 : valid p <;> by_cases h2 : valid (repairFn p) <;>
    simp [h1, h2]

/-- Witness for C6 at an always-failing schema check. -/
theorem validator_one_repair_witness :
    validateOrRepair (fun _ => false) (fun x => x)
        [⟨"d1", "center", .dent, "s", 1/2, .LOW, -3⟩] = ⟨[], 0⟩
    ∧ validatorTrace (fun _ => false) (fun x => x)
        [⟨"d1", "center", .dent, "s", 1/2, .LOW, -3⟩]
      = [.Pending, .RepairAttempted, .Failed] :=
  ⟨(validator_one_repair_then_data (fun _ => false) (fun x => x)
      [⟨"d1", "center", .dent, "s", 1/2, .LOW, -3⟩]).2.2.1 rfl rfl,
    by decide⟩

/-- C9: a core failure (missing input or both model calls failed) yields
exactly the error shape — an error message, empty differences,
`aggregate_tis = 100` and assessment UNKNOWN — while every usable run
yields a schema-valid result: no error, TIS in `[0,100]`, and an
assessment that is never UNKNOWN. -/
theorem core_failure_error_shape :
    (∀ msg, respond (.missingInput msg) = errorShape msg)
    ∧ (∀ msg, respond (.bothModelCallsFailed msg) = errorShape msg)
    ∧ (∀ msg, (errorShape msg).error = some msg
        ∧ (errorShape msg).differences = []
        ∧ (errorShape msg).aggregate_tis = 100
        ∧ (errorShape msg).overall_assessment = .UNKNOWN)
    ∧ (∀ raws, (respond (.usable raws)).error = none
        ∧ 0 ≤ (respond (.usable raws)).aggregate_tis
        ∧ (respond (.usable raws)).aggregate_tis ≤ 100
        ∧ (respond (.usable raws)).overall_assessment ≠ .UNKNOWN) := by
  refine ⟨fun msg => rfl, fun msg => rfl, fun msg => ⟨rfl, rfl, rfl, rfl⟩,
    fun raws => ⟨rfl, ?_, ?_, ?_⟩⟩
  · have he : (respond (.usable raws)).aggregate_tis
        = aggregateTIS (raws.map scoreDifference) := rfl
    rw [he]
    simp only [aggregateTIS, clampInt]
    omega
  · have he : (respond (.usable raws)).aggregate_tis
        = aggregateTIS (raws.map scoreDifference) := rfl
    rw [he]
    simp only [aggregateTIS, clampInt]
    omega
  · have he : (respond (.usable raws)).overall_assessment
        = overallAssessment (raws.map scoreDifference) := rfl
    rw [he]
    unfold overallAssessment assessFromTIS
    split_ifs <;> decide

/-- Witness for C9 at the documented input-error message and a concrete
usable run. -/
theorem core_failure_error_shape_witness :
    respond (.missingInput "Missing baseline/current image inputs")
      = errorShape "Missing baseline/current image inputs"
    ∧ (respond (.usable
        [⟨"d1", "top edge", .seal_tamper, "s", 84/100, .HIGH, -40⟩])
      ).overall_assessment ≠ .UNKNOWN :=
  ⟨core_failure_error_shape.1 _,
    (core_failure_error_shape.2.2.2
      [⟨"d1", "top edge", .seal_tamper, "s", 84/100, .HIGH, -40⟩]).2.2.2⟩

/-- Every URL produced by unpackImages is nonempty. -/
theorem unpackImages_mem_ne_nil (packed : JsStr) (s : JsStr)
    (hs : s ∈ unpackImages packed) : s ≠ [] := by
  unfold unpackImages at hs
  split_ifs at hs with h
  · simp at hs
  · exact of_decide_eq_true (List.mem_filter.mp hs).2

/-- C10: the timeline renders at most two images per event; `unpackImages`
yields `[]` on a blank input and only nonempty trimmed segments otherwise;
and when the packed string holds two or more URLs, exactly the first two
are rendered. -/
theorem timeline_renders_at_most_two_images :
    (∀ image : JsStr, (displayedImages image).length ≤ 2)
    ∧ (∀ packed : JsStr, jsTrim packed = [] → unpackImages packed = [])
    ∧ (∀ packed : JsStr, ∀ s ∈ unpackImages packed, s ≠ [])
    ∧ (∀ image : JsStr, 2 ≤ (unpackImages image).length →
        displayedImages image = (unpackImages image).take 2) := by
  refine ⟨?_, ?_, fun packed s hs => unpackImages_mem_ne_nil packed s hs, ?_⟩
  · intro image
    unfold displayedImages
    split_ifs with h
    · simp
    · exact le_trans (List.length_filter_le _ _) (by simp)
  · intro packed h
    unfold unpackImages
    rw [if_pos h]
  · intro image h2
    have h0 : unpackImages image ≠ [] := by
      intro h0
      rw [h0] at h2
      simp at h2
    obtain ⟨a, tl, ha⟩ := List.exists_cons_of_ne_nil h0
    have h1 : tl ≠ [] := by
      intro h1
      rw [ha, h1] at h2
      simp at h2
    obtain ⟨b, rest, hb⟩ := List.exists_cons_of_ne_nil h1
    have hA : a ≠ [] := unpackImages_mem_ne_nil image a
      (by rw [ha]; exact List.mem_cons_self _ _)
    have hB : b ≠ [] := unpackImages_mem_ne_nil image b
      (by rw [ha, hb]; exact List.mem_cons_of_mem _ (List.mem_cons_self _ _))
    have himg : image ≠ [] := by
      intro h
      rw [h] at h0
      exact h0 rfl
    unfold displayedImages
    rw [if_neg himg, ha, hb]
    simp [jsOr, hA, hB]

/-- Witness for C10: a packed string with three URLs renders the first
two; a whitespace-only string unpacks to nothing. -/
theorem timeline_renders_witness :
    jsTrim "   ".toList = []
    ∧ unpackImages "   ".toList = []
    ∧ 2 ≤ (unpackImages "  a || b || c ||  ".toList).length
    ∧ displayedImages "  a || b || c ||  ".toList
        = (unpackImages "  a || b || c ||  ".toList).take 2
    ∧ displayedImages "  a || b || c ||  ".toList = ["a".toList, "b".toList] :=
  ⟨by decide, timeline_renders_at_most_two_images.2.1 _ (by decide), by decide,
    timeline_renders_at_most_two_images.2.2.2 _ (by decide), by decide⟩

end Boxity
